import Mathlib

/-!
Verification development for the interactive co-simulation orchestration
code of pyiron_contrib (`DecoupledOscillators` in
`protocol/jobs/decoupled_oscillators.py` and `FreeEnergy` in
`protocol/jobs/free_energy.py`).

Conventions of the shallow embedding:
* numpy float arrays become lists of rational numbers (`List Vec3`, `List ℚ`);
  we work over ℚ, treating the claims at the mathematical level.
* Python exceptions become an inductive `PyExn` whose constructors carry the
  exception class raised by the source (`TypeError`, `ValueError`,
  `AssertionError`, `OSError`) and the message; fallible code returns
  `Except PyExn _`.
* numpy array aliasing (the `_forces` buffer that is appended to the
  interactive cache each step) is modelled with an explicit heap: a list of
  array values indexed by addresses, so that a cache entry that holds a
  reference is an address, while `np.array(...)` copies are materialised
  values.
-/

/-- One three-component cartesian vector (a row of a numpy `(n,3)` array). -/
structure Vec3 where
  x : ℚ
  y : ℚ
  z : ℚ
deriving DecidableEq, Repr

def Vec3.zero : Vec3 := ⟨0, 0, 0⟩

def Vec3.sub (a b : Vec3) : Vec3 := ⟨a.x - b.x, a.y - b.y, a.z - b.z⟩

def Vec3.smul (c : ℚ) (v : Vec3) : Vec3 := ⟨c * v.x, c * v.y, c * v.z⟩

def Vec3.dot (a b : Vec3) : ℚ := a.x * b.x + a.y * b.y + a.z * b.z

def Vec3.norm2 (a : Vec3) : ℚ := a.dot a

/-- Orthorhombic simulation cell: edge lengths and a periodic-boundary flag.
Modelled from the spec: the displacement convention of the external
framework routine `Atoms.find_mic` (a boundary collaborator, not part of
this repository), which wraps each component into the minimum image when
periodic boundary conditions are active. -/
structure Cell where
  lx : ℚ
  ly : ℚ
  lz : ℚ
  pbc : Bool
deriving DecidableEq, Repr

def mic1 (len : ℚ) (pbc : Bool) (d : ℚ) : ℚ :=
  if pbc then d - len * (round (d / len) : ℤ) else d

def findMic (c : Cell) (v : Vec3) : Vec3 :=
  ⟨mic1 c.lx c.pbc v.x, mic1 c.ly c.pbc v.y, mic1 c.lz c.pbc v.z⟩

/-- Python exceptions raised by the sources, tagged with their class. -/
inductive PyExn where
  | typeError (msg : String)
  | valueError (msg : String)
  | assertionError (msg : String)
  | osError (msg : String)
deriving DecidableEq, Repr

def PyExn.cls : PyExn → String
  | .typeError _ => "TypeError"
  | .valueError _ => "ValueError"
  | .assertionError _ => "AssertionError"
  | .osError _ => "OSError"

/-- Static configuration of a `DecoupledOscillators` job after validation:
number of atoms, reference positions (`input.structure.positions`), cell,
oscillator atom ids and spring constants. -/
structure DOConfig where
  n : ℕ
  refPos : List Vec3
  cell : Cell
  oscIds : List ℕ
  springs : List ℚ
deriving DecidableEq, Repr

/-- Embedding of `DecoupledOscillators._calc_harmonic`:
`dr = structure.find_mic(positions - reference_positions)`;
`harmonic_forces = -spring_constants * dr[oscillators_id_list]`;
`harmonic_energy_pot = sum over enumerate(oscillators_id_list) of
-0.5 * dot(dr[m], harmonic_forces[i])`. -/
def calcHarmonic (cfg : DOConfig) (pos : List Vec3) : List Vec3 × ℚ :=
  let dr := (List.zipWith Vec3.sub pos cfg.refPos).map (findMic cfg.cell)
  let harmonicForces :=
    List.zipWith (fun k m => Vec3.smul (-k) (dr.getD m Vec3.zero)) cfg.springs cfg.oscIds
  let harmonicEnergyPot :=
    (List.zipWith (fun m f => -(1/2) * Vec3.dot (dr.getD m Vec3.zero) f)
      cfg.oscIds harmonicForces).sum
  (harmonicForces, harmonicEnergyPot)

/-- The per-atom minimum-image displacement used by `_calc_harmonic`. -/
def micDisp (cfg : DOConfig) (pos : List Vec3) (m : ℕ) : Vec3 :=
  ((List.zipWith Vec3.sub pos cfg.refPos).map (findMic cfg.cell)).getD m Vec3.zero

/-- Concrete single-oscillator configuration from the spec's harmonic formula
check: reference position the origin, stiffness 2, no periodic wrapping. -/
def cfgC1 : DOConfig := ⟨1, [⟨0, 0, 0⟩], ⟨10, 10, 10, false⟩, [0], [2]⟩

/-- Concrete current positions for the harmonic formula check. -/
def posC1 : List Vec3 := [⟨1, 0, 0⟩]

/-- Fancy-index assignment `arr[ids] = vals` on a numpy array: write each
value at its id, in list order (duplicate ids in range write without error,
later writes win, as in numpy). -/
def scatter : List Vec3 → List ℕ → List Vec3 → List Vec3
  | buf, [], _ => buf
  | buf, _ :: _, [] => buf
  | buf, i :: is, v :: vs => scatter (buf.set i v) is vs

/-- Embedding of `np.delete(np.arange(len(structure)), oscillators_id_list)`
from `DecoupledOscillators._set_base_structure`: the indices of the atoms
that are not harmonic oscillators. -/
def baseAtomIds (n : ℕ) (oscIds : List ℕ) : List ℕ :=
  (List.range n).filter (fun i => decide (i ∉ oscIds))

/-- The total force array written by one `run_if_interactive` step:
`_forces[_base_atom_ids] = base forces` followed by
`_forces[oscillators_id_list] = harmonic forces`. -/
def stepForcesArray (cfg : DOConfig) (pos baseF buf : List Vec3) : List Vec3 :=
  scatter (scatter buf (baseAtomIds cfg.n cfg.oscIds) baseF) cfg.oscIds (calcHarmonic cfg pos).1

/-- The total potential energy recorded by one `run_if_interactive` step:
`energy_pot = base_energy_pot + harmonic_energy_pot`. -/
def stepEnergy (cfg : DOConfig) (pos : List Vec3) (baseE : ℚ) : ℚ :=
  baseE + (calcHarmonic cfg pos).2

/-- Concrete two-atom scenario from the spec: atom 0 driven by the base
engine, atom 1 a harmonic oscillator with stiffness 5 displaced by 0.2. -/
def cfgC2 : DOConfig := ⟨2, [⟨0, 0, 0⟩, ⟨0, 0, 0⟩], ⟨10, 10, 10, false⟩, [1], [5]⟩

/-- Current positions for the two-atom scenario. -/
def posC2 : List Vec3 := [⟨0, 0, 0⟩, ⟨1/5, 0, 0⟩]

/-- Stub base-engine forces for the two-atom scenario. -/
def baseFC2 : List Vec3 := [⟨1/10, 0, 0⟩]

/-- Mutable state of a running `DecoupledOscillators` job. numpy arrays live
in an explicit heap (`heap`, addressed by list index) because the python code
stores a reference to the single `_forces` array: `interactive_cache.forces`
is a list of heap addresses (`cacheForces`), whereas `output` and the
persisted HDF copy hold materialised array values (numpy `np.array(...)`
copies). -/
structure DOState where
  heap : List (List Vec3)
  forcesAddr : ℕ
  cacheForces : List ℕ
  cacheEnergy : List ℚ
  outForces : List (List Vec3)
  outEnergy : List ℚ
  hdfOutForces : List (List Vec3)
  hdfOutEnergy : List ℚ
  baseJobCreated : Bool
  finished : Bool
deriving DecidableEq, Repr

/-- Fresh job state: empty heap, caches and output. -/
def initialDOState : DOState := ⟨[], 0, [], [], [], [], [], [], false, false⟩

/-- The `_forces = np.zeros(positions.shape)` allocation performed at the end
of `validate_ready_to_run`. -/
def allocForces (n : ℕ) (s : DOState) : DOState :=
  { s with heap := s.heap ++ [List.replicate n Vec3.zero], forcesAddr := s.heap.length }

/-- Embedding of `run_if_interactive`: write the base forces and the harmonic
forces into the `_forces` buffer in place, then append a REFERENCE to that
buffer (its address) to `interactive_cache.forces` and the scalar energy to
`interactive_cache.energy_pot`. -/
def runStep (cfg : DOConfig) (pos baseF : List Vec3) (baseE : ℚ) (s : DOState) : DOState :=
  let cur := s.heap.getD s.forcesAddr []
  { s with
    heap := s.heap.set s.forcesAddr (stepForcesArray cfg pos baseF cur),
    cacheForces := s.cacheForces ++ [s.forcesAddr],
    cacheEnergy := s.cacheEnergy ++ [stepEnergy cfg pos baseE] }

/-- Embedding of `interactive_close`: first `to_hdf` and `output.to_hdf`
persist the CURRENT output (the source saves before assigning), then
`output.forces = np.array(interactive_cache.forces)` materialises the cached
references into values and `output.energy_pot` is copied; finally the status
becomes finished. -/
def interactiveClose (s : DOState) : DOState :=
  { s with
    hdfOutForces := s.outForces,
    hdfOutEnergy := s.outEnergy,
    outForces := s.cacheForces.map (fun a => s.heap.getD a []),
    outEnergy := s.cacheEnergy,
    finished := true }

/-- Embedding of `from_hdf` for the output container: the in-memory output is
replaced by the persisted copy. -/
def fromHdf (s : DOState) : DOState :=
  { s with outForces := s.hdfOutForces, outEnergy := s.hdfOutEnergy }

/-- Single-oscillator configuration used to drive the state machine. -/
def cfgC3 : DOConfig := ⟨1, [⟨0, 0, 0⟩], ⟨10, 10, 10, false⟩, [0], [1]⟩

/-- State after the first interactive step (position [1,0,0]). -/
def stepA : DOState := runStep cfgC3 [⟨1, 0, 0⟩] [] 0 (allocForces 1 initialDOState)

/-- State after the second interactive step (position [2,0,0]). -/
def stepB : DOState := runStep cfgC3 [⟨2, 0, 0⟩] [] 0 stepA

/-- Dynamically-typed python value as it can appear in an input list. -/
inductive PyVal where
  | int (n : ℤ)
  | float (q : ℚ)
  | str (s : String)
deriving DecidableEq, Repr

def PyVal.isInt : PyVal → Bool
  | .int _ => true
  | _ => false

def PyVal.isNum : PyVal → Bool
  | .int _ => true
  | .float _ => true
  | _ => false

/-- Raw inputs of a `DecoupledOscillators` job before validation, with the
dynamic attribute-bag fields the source reads in `_check_inputs`. -/
structure DOInput where
  runMode : String
  structPos : Option (List Vec3)
  refStructPos : List Vec3
  positions : Option (List Vec3)
  oscillatorsIdList : Option (List PyVal)
  springConstantsList : Option (List PyVal)
deriving DecidableEq, Repr

/-- Embedding of `DecoupledOscillators._check_inputs`, in source order: the
run-mode guard raises TypeError; a missing positions input fails the assert;
the oscillator id list must be a list of integers and the spring constant
list a list of integers or floats (ValueError otherwise); the two lists must
have equal length (assert). No other condition is checked: in particular no
check on duplicate, overlapping or out-of-range oscillator indices exists. -/
def checkInputs (inp : DOInput) : Except PyExn Unit :=
  if inp.runMode ≠ "interactive" then
    .error (.typeError "job server run_mode should be set to interactive")
  else if inp.positions.isNone then
    .error (.assertionError "input positions need to be provided")
  else
    match inp.oscillatorsIdList with
    | none => .error (.valueError "oscillators id list should be a list of integers")
    | some ids =>
      if !(ids.all PyVal.isInt) then
        .error (.valueError "oscillator ids should be integers")
      else
        match inp.springConstantsList with
        | none =>
          .error (.valueError "spring constants list should be a list of integers or floats")
        | some ks =>
          if !(ks.all PyVal.isNum) then
            .error (.valueError "spring constants should be integers or floats")
          else if ids.length ≠ ks.length then
            .error (.assertionError "the two input lists should have the same length")
          else .ok ()

/-- Embedding of `validate_ready_to_run`: `_check_inputs` first; only when it
passes are `_set_base_structure` and `_create_base_job` executed (summarised
by the `baseJobCreated` flag) and the `_forces` buffer allocated. -/
def validateReadyToRun (inp : DOInput) (s : DOState) : Except PyExn DOState :=
  match checkInputs inp with
  | .error e => .error e
  | .ok () => .ok (allocForces (inp.positions.getD []).length { s with baseJobCreated := true })

/-- The observable job state after attempting validation: an exception leaves
the previous state in place. -/
def tryValidate (inp : DOInput) (s : DOState) : DOState :=
  match validateReadyToRun inp s with
  | .ok s2 => s2
  | .error _ => s

/-- Overlapping configuration: two atoms, oscillator id 0 listed twice. -/
def inpDup : DOInput :=
  ⟨"interactive", some [⟨0, 0, 0⟩, ⟨0, 0, 0⟩], [⟨0, 0, 0⟩, ⟨0, 0, 0⟩],
    some [⟨0, 0, 0⟩, ⟨0, 0, 0⟩], some [.int 0, .int 0], some [.float 1, .float 1]⟩

/-- Non-interactive configuration: run mode set to a queue-based mode. -/
def inpModal : DOInput :=
  ⟨"modal", some [⟨0, 0, 0⟩], [⟨0, 0, 0⟩], some [⟨0, 0, 0⟩],
    some [.int 0], some [.float 1]⟩

/-- External sub-job as observed by `FreeEnergy`: its reported status, its
per-snapshot volumes, its output cells and its working-directory files. Each
file carries a flag saying whether the filesystem will let it be deleted. -/
structure SubJob where
  status : String
  volume : List ℚ
  cells : List ℚ
  files : List (String × Bool)
deriving DecidableEq, Repr

/-- Accumulated pipeline state of a `FreeEnergy` job: inputs used by the two
stages modelled here, the handle to the NPT-MD sub-job, and the output
fields those stages write. -/
structure FEState where
  temperature : ℚ
  mdThermalizationSteps : ℕ
  mdSamplingSteps : ℕ
  nptJob : Option SubJob
  thermalizeSnapshots : Option ℕ
  outMinimizedEnergy : Option ℚ
  outFeAtoG : Option ℚ
deriving DecidableEq, Repr

/-- Embedding of `FreeEnergy._cleanup_job`: delete every matching file of the
sub-job in order; `remove`/`rmtree` are called with no exception handling, so
the first failing deletion raises OSError out of the helper. -/
def cleanupJob : List (String × Bool) → Except PyExn Unit
  | [] => .ok ()
  | (f, del) :: rest => if del then cleanupJob rest else .error (.osError f)

/-- Embedding of `FreeEnergy.get_npt_md_structure`: ValueError if the NPT-MD
job was never run, ValueError if it is not finished, otherwise `_cleanup_job`
(whose OSError propagates) and then the minimisation; the external Lammps
minimisation run is an opaque oracle `minE` per the spec's scope, and the
snapshot count is `md_thermalization_steps / md_sampling_steps`. -/
def getNptMdStructure (minE : SubJob → ℚ) (s : FEState) : Except PyExn FEState :=
  match s.nptJob with
  | none => .error (.valueError "run npt md needs to be called before get npt md structure")
  | some j =>
    if j.status ≠ "finished" then .error (.valueError "the NPT-MD job is not finished")
    else
      match cleanupJob j.files with
      | .error e => .error e
      | .ok () =>
        .ok { s with
          thermalizeSnapshots := some (s.mdThermalizationSteps / s.mdSamplingSteps),
          outMinimizedEnergy := some (minE j) }

/-- Embedding of `FreeEnergy.get_A_to_G_correction`: ValueError if the NPT-MD
job was never run; no check of the job status is performed. The histogram,
Gaussian fit and log of the normalised probability are an opaque external
oracle `fit` per the spec's scope (the Boltzmann factor is folded into it);
the volumes slice drops the thermalisation snapshots and the final one. -/
def getAtoGCorrection (fit : List ℚ → ℚ) (s : FEState) : Except PyExn FEState :=
  match s.nptJob with
  | none => .error (.valueError "run npt md needs to be called before get A to G correction")
  | some j =>
    let volumes := (j.volume.drop (s.thermalizeSnapshots.getD 0)).dropLast
    .ok { s with outFeAtoG := some (s.temperature * fit volumes) }

/-- Observable pipeline state after attempting a stage: a raised exception
leaves the accumulated state in place. -/
def runFEStage (f : FEState → Except PyExn FEState) (s : FEState) : FEState :=
  match f s with
  | .ok s2 => s2
  | .error _ => s

/-- An NPT-MD sub-job that is still running but already exposes volumes. -/
def jobRunning : SubJob := ⟨"running", [1, 2, 3], [], []⟩

/-- Pipeline state holding the still-running NPT-MD sub-job. -/
def sRunning : FEState := ⟨300, 100, 10, some jobRunning, none, none, none⟩

/-- Pipeline state in which the NPT-MD stage was never run. -/
def sNone : FEState := ⟨300, 100, 10, none, none, none, none⟩

/-- Concrete stand-in for the external volume-distribution fit. -/
def cFit : List ℚ → ℚ := fun v => (v.length : ℚ)

/-- Concrete stand-in for the external minimisation run. -/
def cMinE : SubJob → ℚ := fun _ => 0

/-- A finished NPT-MD sub-job owning one file the filesystem refuses to
delete. -/
def jobStuck : SubJob := ⟨"finished", [1, 2, 3], [], [("dump", false)]⟩

/-- Pipeline state holding the finished sub-job with the undeletable file. -/
def sStuck : FEState := ⟨300, 100, 10, some jobStuck, none, none, none⟩

/-- Embedding of the `DecoupledOscillators.structure` property getter over
the array heap: it returns `input.structure.copy()` when the input structure
is set and `input.ref_job.structure.copy()` otherwise, i.e. it allocates a
fresh array holding a copy of the source content and returns its address. -/
def structureGet (heap : List (List Vec3)) (inputStructAddr : Option ℕ) (refStructAddr : ℕ) :
    List (List Vec3) × ℕ :=
  match inputStructAddr with
  | none => (heap ++ [heap.getD refStructAddr []], heap.length)
  | some a => (heap ++ [heap.getD a []], heap.length)

theorem calcHarmonic_fst_eq (cfg : DOConfig) (pos : List Vec3) :
    (calcHarmonic cfg pos).1 =
      List.zipWith (fun k m => Vec3.smul (-k) (micDisp cfg pos m)) cfg.springs cfg.oscIds := by
  rfl

theorem calcHarmonic_snd_eq (cfg : DOConfig) (pos : List Vec3) :
    (calcHarmonic cfg pos).2 =
      (List.zipWith (fun m f => -(1/2) * Vec3.dot (micDisp cfg pos m) f)
        cfg.oscIds (calcHarmonic cfg pos).1).sum := by
  rfl

theorem Vec3.dot_smul_right (c : ℚ) (a b : Vec3) :
    Vec3.dot a (Vec3.smul c b) = c * Vec3.dot a b := by
  simp only [Vec3.dot, Vec3.smul]
  ring

theorem harmEnergy_sum (d : ℕ → Vec3) :
    ∀ (ks : List ℚ) (ms : List ℕ),
      (List.zipWith (fun m f => -(1/2) * Vec3.dot (d m) f) ms
        (List.zipWith (fun k m => Vec3.smul (-k) (d m)) ks ms)).sum
      = (List.zipWith (fun k m => (1/2) * k * Vec3.norm2 (d m)) ks ms).sum := by
  intro ks
  induction ks with
  | nil => intro ms; cases ms <;> simp
  | cons k ks ih =>
    intro ms
    cases ms with
    | nil => simp
    | cons m ms =>
      simp only [List.zipWith, List.sum_cons, ih ms, Vec3.dot_smul_right, Vec3.norm2]
      ring_nf

/-- C1 (amended): for every corrected index position j, the harmonic force is
minus the stiffness times the minimum-image displacement of the current
position from the reference position, and the harmonic energy contribution is
the sum of +(1/2) * k_j * ‖displacement_j‖^2, i.e. it equals
-0.5 * displacement_j · force_j per oscillator (with no extra stiffness
factor), which is positive, not negative, for a nonzero displacement. -/
theorem C1_harmonic_correction (cfg : DOConfig) (pos : List Vec3)
    (hk : cfg.springs.length = cfg.oscIds.length) :
    (∀ j, j < cfg.oscIds.length →
      (calcHarmonic cfg pos).1.getD j Vec3.zero =
        Vec3.smul (-(cfg.springs.getD j 0)) (micDisp cfg pos (cfg.oscIds.getD j 0))) ∧
    (calcHarmonic cfg pos).2 =
      (List.zipWith (fun k m => (1/2) * k * Vec3.norm2 (micDisp cfg pos m))
        cfg.springs cfg.oscIds).sum := by
  constructor
  · intro j hj
    rw [calcHarmonic_fst_eq]
    have hlen : j < (List.zipWith (fun k m => Vec3.smul (-k) (micDisp cfg pos m))
        cfg.springs cfg.oscIds).length := by
      rw [List.length_zipWith, hk, Nat.min_self]
      exact hj
    rw [List.getD_eq_getElem _ _ hlen, List.getElem_zipWith,
      List.getD_eq_getElem _ _ (by rw [hk]; exact hj), List.getD_eq_getElem _ _ hj]
  · rw [calcHarmonic_snd_eq, calcHarmonic_fst_eq]
    exact harmEnergy_sum (micDisp cfg pos) cfg.springs cfg.oscIds

/-- C1 counterexample: at the spec's own test point (reference [0,0,0],
current position [1,0,0], stiffness 2, no periodic wrapping) the code
computes force [-2,0,0] as claimed, but harmonic energy +1, not -1. -/
theorem C1_counterexample :
    (calcHarmonic cfgC1 posC1).1 = [⟨-2, 0, 0⟩] ∧
    (calcHarmonic cfgC1 posC1).2 = 1 ∧ (1 : ℚ) ≠ -1 := by
  refine ⟨?_, ?_, by norm_num⟩ <;>
    simp [calcHarmonic, cfgC1, posC1, findMic, mic1, Vec3.sub, Vec3.smul, Vec3.dot,
      Vec3.zero]

theorem scatter_length :
    ∀ (ids : List ℕ) (buf vals : List Vec3), (scatter buf ids vals).length = buf.length := by
  intro ids
  induction ids with
  | nil => intro buf vals; cases vals <;> rfl
  | cons i is ih =>
    intro buf vals
    cases vals with
    | nil => rfl
    | cons v vs => rw [scatter, ih, List.length_set]

theorem scatter_getElem?_not_mem :
    ∀ (ids : List ℕ) (buf vals : List Vec3) (i : ℕ), i ∉ ids →
      (scatter buf ids vals)[i]? = buf[i]? := by
  intro ids
  induction ids with
  | nil => intro buf vals i _; cases vals <;> rfl
  | cons a as ih =>
    intro buf vals i hi
    cases vals with
    | nil => rfl
    | cons v vs =>
      rw [scatter, ih _ _ _ (fun h => hi (List.mem_cons_of_mem a h)),
        List.getElem?_set_ne (by intro h; exact hi (by rw [← h]; exact List.mem_cons_self a as))]

theorem scatter_getElem?_at :
    ∀ (ids : List ℕ) (vals buf : List Vec3) (j : ℕ), ids.Nodup →
      j < ids.length → j < vals.length → (∀ m ∈ ids, m < buf.length) →
      (scatter buf ids vals)[ids.getD j 0]? = some (vals.getD j Vec3.zero) := by
  intro ids
  induction ids with
  | nil => intro vals buf j _ hj; exact absurd hj (Nat.not_lt_zero j)
  | cons a as ih =>
    intro vals buf j hnd hj hv hran
    cases vals with
    | nil => exact absurd hv (Nat.not_lt_zero j)
    | cons v vs =>
      cases j with
      | zero =>
        rw [List.getD_cons_zero, List.getD_cons_zero, scatter,
          scatter_getElem?_not_mem _ _ _ _ (List.nodup_cons.mp hnd).1,
          List.getElem?_set_eq_of_lt v (hran a (List.mem_cons_self a as))]
      | succ j =>
        rw [List.getD_cons_succ, List.getD_cons_succ, scatter]
        exact ih vs (buf.set a v) j (List.nodup_cons.mp hnd).2
          (Nat.lt_of_succ_lt_succ hj) (Nat.lt_of_succ_lt_succ hv)
          (fun m hm => by rw [List.length_set]; exact hran m (List.mem_cons_of_mem a hm))

theorem mem_baseAtomIds (n : ℕ) (oscIds : List ℕ) (i : ℕ) :
    i ∈ baseAtomIds n oscIds ↔ i < n ∧ i ∉ oscIds := by
  simp [baseAtomIds, List.mem_filter, List.mem_range]

theorem baseAtomIds_nodup (n : ℕ) (oscIds : List ℕ) : (baseAtomIds n oscIds).Nodup :=
  (List.nodup_range n).filter _

/-- C2: the total force array written by one interactive step holds the
harmonic forces at exactly the oscillator indices and the base-job forces at
exactly the complementary base indices (which are exactly the indices below n
that are not oscillator indices), and the recorded total potential energy is
the base energy plus the harmonic energy, here expressed through the closed
form of the harmonic energy. -/
theorem C2_step_additivity (cfg : DOConfig) (pos baseF buf : List Vec3) (baseE : ℚ)
    (hnd : cfg.oscIds.Nodup)
    (hran : ∀ m ∈ cfg.oscIds, m < cfg.n)
    (hbuf : buf.length = cfg.n)
    (hbF : baseF.length = (baseAtomIds cfg.n cfg.oscIds).length)
    (hk : cfg.springs.length = cfg.oscIds.length) :
    (∀ j, j < cfg.oscIds.length →
      (stepForcesArray cfg pos baseF buf)[cfg.oscIds.getD j 0]? =
        some ((calcHarmonic cfg pos).1.getD j Vec3.zero)) ∧
    (∀ j, j < (baseAtomIds cfg.n cfg.oscIds).length →
      (stepForcesArray cfg pos baseF buf)[(baseAtomIds cfg.n cfg.oscIds).getD j 0]? =
        some (baseF.getD j Vec3.zero)) ∧
    (∀ i, i ∈ baseAtomIds cfg.n cfg.oscIds ↔ i < cfg.n ∧ i ∉ cfg.oscIds) ∧
    stepEnergy cfg pos baseE = baseE +
      (List.zipWith (fun k m => (1/2) * k * Vec3.norm2 (micDisp cfg pos m))
        cfg.springs cfg.oscIds).sum := by
  have hinner : ∀ m ∈ cfg.oscIds,
      m < (scatter buf (baseAtomIds cfg.n cfg.oscIds) baseF).length := by
    intro m hm
    rw [scatter_length, hbuf]
    exact hran m hm
  refine ⟨?_, ?_, mem_baseAtomIds cfg.n cfg.oscIds, ?_⟩
  · intro j hj
    have hv : j < (calcHarmonic cfg pos).1.length := by
      rw [calcHarmonic_fst_eq, List.length_zipWith, hk, Nat.min_self]
      exact hj
    exact scatter_getElem?_at cfg.oscIds _ _ j hnd hj hv hinner
  · intro j hj
    have ht : (baseAtomIds cfg.n cfg.oscIds).getD j 0 ∈ baseAtomIds cfg.n cfg.oscIds := by
      rw [List.getD_eq_getElem _ _ hj]
      exact List.getElem_mem hj
    have hnotosc : (baseAtomIds cfg.n cfg.oscIds).getD j 0 ∉ cfg.oscIds :=
      ((mem_baseAtomIds cfg.n cfg.oscIds _).mp ht).2
    rw [stepForcesArray, scatter_getElem?_not_mem _ _ _ _ hnotosc]
    exact scatter_getElem?_at _ _ _ j (baseAtomIds_nodup cfg.n cfg.oscIds) hj
      (by rw [hbF]; exact hj)
      (fun m hm => by rw [hbuf]; exact ((mem_baseAtomIds cfg.n cfg.oscIds m).mp hm).1)
  · rw [stepEnergy, calcHarmonic_snd_eq, calcHarmonic_fst_eq,
      harmEnergy_sum (micDisp cfg pos) cfg.springs cfg.oscIds]

/-- C2 witness: the additivity theorem instantiated on the two-atom scenario
with a zero-initialised force buffer and base energy 1/5. -/
theorem C2_step_additivity_witness :
    (stepForcesArray cfgC2 posC2 baseFC2 [Vec3.zero, Vec3.zero])[cfgC2.oscIds.getD 0 0]? =
      some ((calcHarmonic cfgC2 posC2).1.getD 0 Vec3.zero) ∧
    (stepForcesArray cfgC2 posC2 baseFC2
        [Vec3.zero, Vec3.zero])[(baseAtomIds cfgC2.n cfgC2.oscIds).getD 0 0]? =
      some (baseFC2.getD 0 Vec3.zero) ∧
    stepEnergy cfgC2 posC2 (1/5) = 1/5 +
      (List.zipWith (fun k m => (1/2) * k * Vec3.norm2 (micDisp cfgC2 posC2 m))
        cfgC2.springs cfgC2.oscIds).sum := by
  have h := C2_step_additivity cfgC2 posC2 baseFC2 [Vec3.zero, Vec3.zero] (1/5)
    (by decide) (by decide) (by decide) (by decide) (by decide)
  exact ⟨h.1 0 (by decide), h.2.1 0 (by decide), h.2.2.2⟩

/-- C3: the step history is NOT an append-only log of immutable records. The
forces buffer written at step 0 holds [-1,0,0], but because every step appends
the same mutable array to the cache, after the second step and close the
recorded forces for step 0 read [-2,0,0]: a later step modified the forces
stored for an earlier one. -/
theorem C3_history_mutated :
    stepA.heap.getD stepA.forcesAddr [] = [⟨-1, 0, 0⟩] ∧
    (interactiveClose stepB).outForces.getD 0 [] = [⟨-2, 0, 0⟩] ∧
    (interactiveClose stepB).outForces.getD 0 [] ≠ stepA.heap.getD stepA.forcesAddr [] := by
  refine ⟨?_, ?_, ?_⟩ <;>
    simp [stepA, stepB, interactiveClose, runStep, allocForces, initialDOState,
      stepForcesArray, stepEnergy, scatter, baseAtomIds, calcHarmonic, micDisp,
      findMic, mic1, Vec3.smul, Vec3.sub, Vec3.dot, Vec3.zero, cfgC3]

/-- C5: a second `interactive_close` leaves the recorded step history (the
output forces and energies) and the finished status exactly as after the
first close: close is idempotent with respect to the StepRecord history. -/
theorem C5_close_idempotent (s : DOState) :
    (interactiveClose (interactiveClose s)).outForces = (interactiveClose s).outForces ∧
    (interactiveClose (interactiveClose s)).outEnergy = (interactiveClose s).outEnergy ∧
    (interactiveClose (interactiveClose s)).finished = (interactiveClose s).finished := by
  exact ⟨rfl, rfl, rfl⟩

/-- C9: persistence at close loses the step history. `interactive_close`
saves the output to HDF before assigning the cached forces and energies to
it, so after one step and a close the in-memory history is [[-1,0,0]] while
the reloaded (persisted) history is empty. -/
theorem C9_roundtrip_loses_history :
    (interactiveClose stepA).outForces = [[⟨-1, 0, 0⟩]] ∧
    (fromHdf (interactiveClose stepA)).outForces = [] ∧
    ([] : List (List Vec3)) ≠ [[⟨-1, 0, 0⟩]] := by
  refine ⟨?_, ?_, ?_⟩ <;>
    simp [stepA, interactiveClose, fromHdf, runStep, allocForces, initialDOState,
      stepForcesArray, stepEnergy, scatter, baseAtomIds, calcHarmonic, micDisp,
      findMic, mic1, Vec3.smul, Vec3.sub, Vec3.dot, Vec3.zero, cfgC3]

/-- C4 counterexample: a configuration whose oscillator index list contains
index 0 twice (an overlapping partition of the index set) passes validation
with no error at all: no IndexPartitionError is raised at validation time. -/
theorem C4_counterexample :
    inpDup.oscillatorsIdList = some [.int 0, .int 0] ∧
    ¬ ([(0 : ℤ), 0].Nodup) ∧
    checkInputs inpDup = .ok () ∧
    (validateReadyToRun inpDup initialDOState).isOk = true := by
  refine ⟨rfl, by decide, rfl, rfl⟩

/-- C4 (amended): validation checks only the run mode, the presence of
positions, the element types of the two input lists and their equal length;
any configuration meeting those passes with no error, regardless of whether
the oscillator indices overlap or cover the index set, and the base indices
are by construction exactly the complement of the oscillator indices. The
code raises no partition-related error. -/
theorem C4_no_index_check (inp : DOInput) (ids ks : List PyVal)
    (hmode : inp.runMode = "interactive")
    (hpos : inp.positions.isNone = false)
    (hids : inp.oscillatorsIdList = some ids)
    (hint : ids.all PyVal.isInt = true)
    (hks : inp.springConstantsList = some ks)
    (hnum : ks.all PyVal.isNum = true)
    (hlen : ids.length = ks.length) :
    checkInputs inp = .ok () ∧
    (validateReadyToRun inp s).isOk = true ∧
    (∀ n oscN i, i ∈ baseAtomIds n oscN ↔ i < n ∧ i ∉ oscN) := by
  have hchk : checkInputs inp = .ok () := by
    rw [checkInputs, hids, hks]
    simp [hmode, hpos, hint, hnum, hlen]
  refine ⟨hchk, ?_, fun n oscN i => mem_baseAtomIds n oscN i⟩
  rw [validateReadyToRun, hchk]
  rfl

/-- C4 witness: the amended theorem instantiated on the overlapping
configuration with a duplicated oscillator index. -/
theorem C4_no_index_check_witness :
    checkInputs inpDup = .ok () ∧
    (validateReadyToRun inpDup initialDOState).isOk = true ∧
    (∀ n oscN i, i ∈ baseAtomIds n oscN ↔ i < n ∧ i ∉ oscN) :=
  C4_no_index_check (s := initialDOState) inpDup [.int 0, .int 0] [.float 1, .float 1]
    rfl rfl rfl rfl rfl rfl rfl

/-- C7 counterexample: with a non-interactive run mode, validation fails, but
the exception raised is the builtin TypeError, not a ConfigurationError (no
such class exists in the code). -/
theorem C7_counterexample :
    validateReadyToRun inpModal initialDOState =
      .error (.typeError "job server run_mode should be set to interactive") ∧
    (PyExn.typeError "job server run_mode should be set to interactive").cls = "TypeError" ∧
    "TypeError" ≠ "ConfigurationError" := by
  refine ⟨rfl, rfl, by decide⟩

/-- C7 (amended): whenever the run mode is not interactive, validation fails
with a TypeError raised by the first check of `_check_inputs`, before the
base sub-job is created or the forces buffer is allocated: the observable
job state is unchanged and in particular no base job exists afterwards. -/
theorem C7_run_mode_guard (inp : DOInput) (s : DOState)
    (hmode : inp.runMode ≠ "interactive") :
    validateReadyToRun inp s =
      .error (.typeError "job server run_mode should be set to interactive") ∧
    tryValidate inp s = s := by
  have hchk : checkInputs inp =
      .error (.typeError "job server run_mode should be set to interactive") := by
    rw [checkInputs]
    simp [hmode]
  have hval : validateReadyToRun inp s =
      .error (.typeError "job server run_mode should be set to interactive") := by
    rw [validateReadyToRun, hchk]
  exact ⟨hval, by rw [tryValidate, hval]⟩

/-- C7 witness: the amended theorem instantiated on the modal-mode input. -/
theorem C7_run_mode_guard_witness :
    validateReadyToRun inpModal initialDOState =
      .error (.typeError "job server run_mode should be set to interactive") ∧
    tryValidate inpModal initialDOState = initialDOState :=
  C7_run_mode_guard inpModal initialDOState (by decide)

/-- C6 counterexample: with the NPT-MD sub-job present but in a
non-terminal-success status, `get_A_to_G_correction` does not fail at all: it
succeeds and mutates the pipeline state, so it is false that a stage run with
a not-finished producing sub-job always fails and never mutates state. -/
theorem C6_counterexample :
    jobRunning.status = "running" ∧
    sRunning.nptJob = some jobRunning ∧
    (getAtoGCorrection cFit sRunning).isOk = true ∧
    (runFEStage (getAtoGCorrection cFit) sRunning).outFeAtoG.isSome = true ∧
    sRunning.outFeAtoG.isSome = false :=
  ⟨rfl, rfl, rfl, rfl, rfl⟩

/-- C6 (amended): the stage guards raise the builtin ValueError, and a failed
call leaves the accumulated state unchanged: with no NPT-MD job both stages
fail with ValueError and change nothing, and `get_npt_md_structure` (alone)
also fails with ValueError, changing nothing, when the job is present but its
status is not finished; `get_A_to_G_correction` performs no status check. -/
theorem C6_stage_guards (minE : SubJob → ℚ) (fit : List ℚ → ℚ)
    (s s2 : FEState) (j : SubJob)
    (h1 : s.nptJob = none) (h2 : s2.nptJob = some j) (h3 : j.status ≠ "finished") :
    getNptMdStructure minE s =
      .error (.valueError "run npt md needs to be called before get npt md structure") ∧
    getAtoGCorrection fit s =
      .error (.valueError "run npt md needs to be called before get A to G correction") ∧
    runFEStage (getNptMdStructure minE) s = s ∧
    runFEStage (getAtoGCorrection fit) s = s ∧
    getNptMdStructure minE s2 = .error (.valueError "the NPT-MD job is not finished") ∧
    runFEStage (getNptMdStructure minE) s2 = s2 := by
  have ha : getNptMdStructure minE s =
      .error (.valueError "run npt md needs to be called before get npt md structure") := by
    rw [getNptMdStructure, h1]
  have hb : getAtoGCorrection fit s =
      .error (.valueError "run npt md needs to be called before get A to G correction") := by
    rw [getAtoGCorrection, h1]
  have hc : getNptMdStructure minE s2 =
      .error (.valueError "the NPT-MD job is not finished") := by
    rw [getNptMdStructure, h2]
    simp [h3]
  exact ⟨ha, hb, by rw [runFEStage, ha], by rw [runFEStage, hb], hc, by rw [runFEStage, hc]⟩

/-- C6 witness: the amended guard theorem instantiated on the empty pipeline
state and on the still-running NPT-MD sub-job. -/
theorem C6_stage_guards_witness :
    getNptMdStructure cMinE sNone =
      .error (.valueError "run npt md needs to be called before get npt md structure") ∧
    getAtoGCorrection cFit sNone =
      .error (.valueError "run npt md needs to be called before get A to G correction") ∧
    runFEStage (getNptMdStructure cMinE) sNone = sNone ∧
    runFEStage (getAtoGCorrection cFit) sNone = sNone ∧
    getNptMdStructure cMinE sRunning = .error (.valueError "the NPT-MD job is not finished") ∧
    runFEStage (getNptMdStructure cMinE) sRunning = sRunning :=
  C6_stage_guards cMinE cFit sNone sRunning jobRunning rfl rfl (by decide)

/-- C8 counterexample: cleanup is not best-effort: when deleting the
sub-job's working-directory file fails, the OSError escapes `_cleanup_job`
and aborts `get_npt_md_structure` itself, rather than being logged and
swallowed. -/
theorem C8_counterexample :
    jobStuck.status = "finished" ∧
    cleanupJob jobStuck.files = .error (.osError "dump") ∧
    getNptMdStructure cMinE sStuck = .error (.osError "dump") ∧
    (PyExn.osError "dump").cls = "OSError" :=
  ⟨rfl, rfl, rfl, rfl⟩

/-- C8 (amended): `_cleanup_job` deletes with no exception handling, so any
deletion failure propagates unchanged out of the calling stage: if cleanup of
the finished NPT-MD job's files raises an error, `get_npt_md_structure`
raises that same error. -/
theorem C8_cleanup_escalates (minE : SubJob → ℚ) (s : FEState) (j : SubJob) (e : PyExn)
    (h1 : s.nptJob = some j) (h2 : j.status = "finished")
    (h3 : cleanupJob j.files = .error e) :
    getNptMdStructure minE s = .error e := by
  rw [getNptMdStructure, h1]
  simp [h2, h3]

/-- C8 witness: the escalation theorem instantiated on the finished sub-job
with the undeletable file. -/
theorem C8_cleanup_escalates_witness :
    getNptMdStructure cMinE sStuck = .error (.osError "dump") :=
  C8_cleanup_escalates cMinE sStuck jobStuck (.osError "dump") rfl rfl rfl

/-- C10: the structure accessor is a defensive copy: the returned handle is a
fresh address distinct from the source structure's address, its content is a
copy of the source structure (the input structure when set, else the
reference job's structure), and overwriting the returned object with any
value leaves the source structure's content unchanged. -/
theorem C10_structure_copy (heap : List (List Vec3)) (ia : Option ℕ) (ra : ℕ)
    (hsrc : ia.getD ra < heap.length) :
    (structureGet heap ia ra).2 ≠ ia.getD ra ∧
    (structureGet heap ia ra).1.getD (structureGet heap ia ra).2 [] =
      heap.getD (ia.getD ra) [] ∧
    (∀ v, ((structureGet heap ia ra).1.set (structureGet heap ia ra).2 v).getD
      (ia.getD ra) [] = heap.getD (ia.getD ra) []) := by
  have hne : heap.length ≠ ia.getD ra := Nat.ne_of_gt hsrc
  have hfst : (structureGet heap ia ra).1 = heap ++ [heap.getD (ia.getD ra) []] := by
    cases ia <;> rfl
  have hsnd : (structureGet heap ia ra).2 = heap.length := by
    cases ia <;> rfl
  refine ⟨by rw [hsnd]; exact hne, ?_, ?_⟩
  · rw [hfst, hsnd, List.getD_eq_getElem?_getD, List.getElem?_concat_length]
    rfl
  · intro v
    rw [hfst, hsnd, List.getD_eq_getElem?_getD, List.getElem?_set_ne hne,
      List.getElem?_append_left hsrc, ← List.getD_eq_getElem?_getD]

/-- C10 witness: the defensive-copy theorem on a one-structure heap with the
input structure set. -/
theorem C10_structure_copy_witness :
    (structureGet [[⟨1, 1, 1⟩]] (some 0) 0).2 ≠ (some 0).getD 0 ∧
    (structureGet [[⟨1, 1, 1⟩]] (some 0) 0).1.getD
        (structureGet [[⟨1, 1, 1⟩]] (some 0) 0).2 [] =
      [[⟨1, 1, 1⟩]].getD ((some 0).getD 0) [] ∧
    (∀ v, ((structureGet [[⟨1, 1, 1⟩]] (some 0) 0).1.set
        (structureGet [[⟨1, 1, 1⟩]] (some 0) 0).2 v).getD ((some 0).getD 0) [] =
      [[⟨1, 1, 1⟩]].getD ((some 0).getD 0) []) :=
  C10_structure_copy [[⟨1, 1, 1⟩]] (some 0) 0 (by decide)

/-- C1 witness: the amended theorem instantiated at the spec's test point. -/
theorem C1_harmonic_correction_witness :
    (calcHarmonic cfgC1 posC1).1.getD 0 Vec3.zero =
      Vec3.smul (-(cfgC1.springs.getD 0 0)) (micDisp cfgC1 posC1 (cfgC1.oscIds.getD 0 0)) ∧
    (calcHarmonic cfgC1 posC1).2 =
      (List.zipWith (fun k m => (1/2) * k * Vec3.norm2 (micDisp cfgC1 posC1 m))
        cfgC1.springs cfgC1.oscIds).sum :=
  ⟨(C1_harmonic_correction cfgC1 posC1 (by decide)).1 0 (by decide),
   (C1_harmonic_correction cfgC1 posC1 (by decide)).2⟩
